import Mathlib

/-!
Verification of the MSR23 ESP12 modem firmware (src/src/main.cpp) against its
specification.  The firmware is shallowly embedded: bytes and characters are
`Nat` values (ASCII codes), machine integers are `Int` or `Nat` with explicit
reduction modulo 2^16 or 2^8 where the C code relies on unsigned wraparound,
serial and socket side effects are lists of symbolic events, and each
definition mirrors one function or branch of the C source, cited by line
number in its doc comment.
-/

namespace Msr23

/-- CREDS_MAGIC constant, main.cpp line 20. -/
def CREDS_MAGIC : Nat := 14337

/-- Wifi credentials record, struct creds at main.cpp lines 21-25.  The two
function fields hold the raw bytes of the fixed-size arrays: 33 ssid bytes
and 64 password bytes; `crc` is the stored 16-bit checksum. -/
structure Creds where
  crc : Nat
  pass : Fin 64 → Nat
  ssid : Fin 33 → Nat

/-- creds_crc, main.cpp lines 125-137: a uint16_t accumulator sums every byte
of the ssid array, then every byte of the password array, and finally adds
CREDS_MAGIC; uint16_t arithmetic makes the whole computation mod 2^16. -/
def creds_crc (c : Creds) : Nat :=
  ((∑ i, c.ssid i) + (∑ i, c.pass i) + CREDS_MAGIC) % 65536

/-- Acceptance test applied by setup at main.cpp line 435: the record loaded
from EEPROM is trusted iff its crc field equals the recomputed checksum. -/
def creds_accept (c : Creds) : Prop :=
  c.crc = creds_crc c

instance creds_accept_dec (c : Creds) : Decidable (creds_accept c) := by
  unfold creds_accept
  infer_instance

/-- Credentials handling in setup, main.cpp lines 432-440: on checksum
mismatch the first byte of each field is overwritten with NUL so that both
C strings read as empty. -/
def setup_creds (c : Creds) : Creds :=
  if c.crc = creds_crc c then c
  else { c with ssid := Function.update c.ssid 0 0, pass := Function.update c.pass 0 0 }

/-- Contents of a NUL-terminated C string stored in a fixed-size byte array:
the bytes strictly before the first NUL. -/
def cstr {n : Nat} (f : Fin n → Nat) : List Nat :=
  (List.ofFn f).takeWhile (fun b => b != 0)

/-- rtc_storage, main.cpp lines 32-39.  `data` holds the 32-bit pattern of
the int32 value; the union's data_bytes view is recovered by `data_byte`. -/
structure RtcStorage where
  magic0 : Nat
  magic1 : Nat
  magic2 : Nat
  checksum : Nat
  data : Nat

/-- Byte `k` of a 32-bit little-endian value: the data_bytes union view at
main.cpp lines 35-38. -/
def data_byte (v k : Nat) : Nat := v / 256 ^ k % 256

/-- Checksum of the four value bytes, as computed at main.cpp lines 82-83
and 101-102; uint8_t arithmetic makes it mod 2^8. -/
def rtc_checksum (v : Nat) : Nat :=
  (data_byte v 0 + data_byte v 1 + data_byte v 2 + data_byte v 3) % 256

/-- rtc_usermem_set, main.cpp lines 75-86: builds the record with magic
bytes R, U, M (82, 85, 77) and the checksum of the stored value bytes. -/
def rtc_usermem_set (v : Nat) : RtcStorage :=
  { magic0 := 82, magic1 := 85, magic2 := 77, checksum := rtc_checksum v, data := v }

/-- rtc_usermem_get, main.cpp lines 90-110: magic mismatch or checksum
mismatch yields failure, otherwise the stored value. -/
def rtc_usermem_get (d : RtcStorage) : Option Nat :=
  if d.magic0 ≠ 82 ∨ d.magic1 ≠ 85 ∨ d.magic2 ≠ 77 then none
  else if rtc_checksum d.data ≠ d.checksum then none
  else some d.data

/-- Escaping used when printing the current ssid in the AT+CWJAP? branch,
main.cpp lines 215-219: a double quote (34), comma (44) or backslash (92)
is prefixed with a backslash. -/
def escape_byte (c : Nat) : List Nat :=
  if c = 34 ∨ c = 44 ∨ c = 92 then [92, c] else [c]

/-- Escape every byte of a field, main.cpp lines 215-219. -/
def escape (s : List Nat) : List Nat :=
  (s.map escape_byte).flatten

/-- Quoted-field unescaping loop of the AT+CWJAP= branch, main.cpp lines
246-250 (ssid, bound 32) and 263-267 (password, bound 63): bytes are copied
until an unescaped double quote, the NUL terminator (the end of the list or
an explicit 0 byte) or the capacity bound; a backslash makes the following
byte be copied verbatim.  `n` counts the bytes copied so far and `acc`
holds them in reverse; the result is the copied field and the unconsumed
input. -/
def parse_field (bound : Nat) : Nat → List Nat → List Nat → List Nat × List Nat
  | _, acc, [] => (acc.reverse, [])
  | n, acc, c :: rest =>
    if c = 34 ∨ c = 0 ∨ bound ≤ n then (acc.reverse, c :: rest)
    else if c = 92 then
      match rest with
      | [] => ((0 :: acc).reverse, [])
      | d :: rest2 => parse_field bound (n + 1) (d :: acc) rest2
    else parse_field bound (n + 1) (c :: acc) rest

/-- Argument parser of the AT+CWJAP= branch, main.cpp lines 239-273: a
leading double quote, the ssid field, the literal delimiter
quote-comma-quote, the password field and the closing double quote;
anything after the closing quote is ignored. -/
def parse_cwjap (args : List Nat) : Option (List Nat × List Nat) :=
  match args with
  | [] => none
  | c0 :: rest =>
    if c0 = 34 then
      match parse_field 32 0 [] rest with
      | (ssid, rem) =>
        match rem with
        | a :: b :: c :: rest2 =>
          if a = 34 ∧ b = 44 ∧ c = 34 then
            match parse_field 63 0 [] rest2 with
            | (pass, rem2) =>
              match rem2 with
              | d :: _ => if d = 34 then some (ssid, pass) else none
              | [] => none
          else none
        | _ => none
    else none

/-- Observable actions of the firmware.  Each constructor corresponds to one
serial print or external API call site in main.cpp. -/
inductive Ev
  | ok
  | err
  | ready
  | prompt
  | sendOk
  | linkIsNot
  | tooLong
  | noAp
  | cwjapFail
  | cwjapInfo (s : List Nat)
  | echo (s : List Nat)
  | closed (i : Nat)
  | connectN (i : Nat)
  | newClientStop
  | sockStop (i : Nat)
  | sockWrite (i : Nat) (data : List Nat)
  | rtcSet (v : Int)
  | eepromPut (ssid pass : List Nat)
  | wifiDisconnect
  | wifiBegin (ssid pass : List Nat)
  | wifiWait
  deriving DecidableEq

/-- Events that deliver payload bytes to a slot or report send completion:
the socket write at main.cpp line 485 and the SEND OK print at line 486. -/
def sendish (e : Ev) : Bool :=
  match e with
  | Ev.sockWrite _ _ => true
  | Ev.sendOk => true
  | _ => false

/-- Mutable firmware state touched by the modelled code: the client slot
table and connected counter (main.cpp lines 48-50), the server state (lines
42-43), the AT+CIPSEND collector (lines 61-64, `send_buf` holding the
collected bytes so that send_pos is its length), the serial command
accumulator (lines 56-58) and the in-memory credential strings.  A slot's
`client` flag models a non-null client pointer and `conn` the result of its
connected() query. -/
structure St where
  client : Nat → Bool
  conn : Nat → Bool
  connected : Int
  server : Bool
  server_port : Int
  send_buf : List Nat
  send_len : Int
  send_to : Int
  input_buf : List Nat
  creds_ssid : List Nat
  creds_pass : List Nat

/-- Answers of the external wifi collaborator: WiFi.isConnected() and the
result of WiFi.waitForConnectResult(15000). -/
structure Env where
  isConnected : Bool
  joinOk : Bool

/-- Boot state: empty slot table, no server, idle collector, empty buffers
(main.cpp lines 42-64). -/
def st_init : St :=
  { client := fun _ => false,
    conn := fun _ => false,
    connected := 0,
    server := false,
    server_port := 0,
    send_buf := [],
    send_len := 0,
    send_to := -1,
    input_buf := [],
    creds_ssid := [],
    creds_pass := [] }

/-- server_stop, main.cpp lines 141-166: every allocated slot's socket is
stopped and freed, the server is discarded, the connected count and port
are reset and the rtc record is cleared. -/
def server_stop (st : St) : St × List Ev :=
  ({ st with client := fun _ => false,
             connected := 0,
             server := false,
             server_port := 0 },
   (((List.range 16).filter (fun i => st.client i)).map Ev.sockStop) ++ [Ev.rtcSet 0])

/-- Digit accumulation of sscanf %d: consume decimal digits, accumulating
the value. -/
def scan_digits_aux (acc : Nat) : List Nat → Nat × List Nat
  | [] => (acc, [])
  | c :: rest =>
    if 48 ≤ c ∧ c ≤ 57 then scan_digits_aux (acc * 10 + (c - 48)) rest
    else (acc, c :: rest)

/-- Whitespace recognized by the sscanf %d conversion. -/
def is_ws (c : Nat) : Bool :=
  c == 32 || c == 9 || c == 10 || c == 11 || c == 12 || c == 13

/-- One sscanf %d conversion: optional whitespace, optional sign, at least
one digit; fails with no digit. -/
def scan_int (s : List Nat) : Option (Int × List Nat) :=
  match s.dropWhile is_ws with
  | 45 :: c :: rest =>
    if 48 ≤ c ∧ c ≤ 57 then
      match scan_digits_aux (c - 48) rest with
      | (n, r) => some (-(n : Int), r)
    else none
  | 43 :: c :: rest =>
    if 48 ≤ c ∧ c ≤ 57 then
      match scan_digits_aux (c - 48) rest with
      | (n, r) => some ((n : Int), r)
    else none
  | c :: rest =>
    if 48 ≤ c ∧ c ≤ 57 then
      match scan_digits_aux (c - 48) rest with
      | (n, r) => some ((n : Int), r)
    else none
  | [] => none

/-- sscanf with format %d,%d as used at main.cpp lines 311 and 357: returns
the number of successful conversions and the two values. -/
def scan_dd (s : List Nat) : Nat × Int × Int :=
  match scan_int s with
  | none => (0, 0, 0)
  | some (a, r1) =>
    match r1 with
    | 44 :: r2 =>
      match scan_int r2 with
      | none => (1, a, 0)
      | some (b, _) => (2, a, b)
    | _ => (1, a, 0)

/-- sscanf with format %d as used at main.cpp line 333. -/
def scan_d (s : List Nat) : Option Int :=
  match scan_int s with
  | none => none
  | some (a, _) => some a

/-- Join tail of the AT+CWJAP= branch, main.cpp lines 276-298: if the pair
differs from the stored credentials they are overwritten, persisted to
EEPROM and a fresh join is started; in every case the bounded
waitForConnectResult is performed, answering OK on success and the
CWJAP:1 FAIL text on failure. -/
def cwjap_join (st : St) (env : Env) (ssid pass : List Nat) : St × List Ev :=
  if ssid ≠ st.creds_ssid ∨ pass ≠ st.creds_pass then
    let st1 := { st with creds_ssid := ssid, creds_pass := pass }
    if env.joinOk then
      (st1, [Ev.eepromPut ssid pass, Ev.wifiDisconnect, Ev.wifiBegin ssid pass,
             Ev.wifiWait, Ev.ok])
    else
      (st1, [Ev.eepromPut ssid pass, Ev.wifiDisconnect, Ev.wifiBegin ssid pass,
             Ev.wifiWait, Ev.cwjapFail])
  else
    if env.joinOk then (st, [Ev.wifiWait, Ev.ok])
    else (st, [Ev.wifiWait, Ev.cwjapFail])

/-- AT+CWJAP= branch, main.cpp lines 233-299: quoted-field parse with
backslash unescaping, redaction of the password portion of the history
entry at line 259 (a strcpy of star-quote at offset src - command), and the
join tail.  `hist` is the history text committed at lines 175-183; the
third component of the result is the final committed history entry. -/
def cwjap_branch (st : St) (env : Env) (cmd : List Nat) (hist : List Nat) :
    St × List Ev × Option (List Nat) :=
  match cmd.drop 9 with
  | [] => (st, [Ev.err], some hist)
  | c0 :: rest =>
    if c0 = 34 then
      match parse_field 32 0 [] rest with
      | (ssid, rem) =>
        match rem with
        | a :: b :: c :: rest2 =>
          if a = 34 ∧ b = 44 ∧ c = 34 then
            let off := 9 + 1 + (rest.length - (a :: b :: c :: rest2).length) + 3
            let hist1 := hist.take off ++ [42, 34]
            match parse_field 63 0 [] rest2 with
            | (pass, rem2) =>
              match rem2 with
              | d :: _ =>
                if d = 34 then
                  let r := cwjap_join st env ssid pass
                  (r.1, r.2, some hist1)
                else (st, [Ev.err], some hist1)
              | [] => (st, [Ev.err], some hist1)
          else (st, [Ev.err], some hist)
        | _ => (st, [Ev.err], some hist)
    else (st, [Ev.err], some hist)

/-- AT+CIPSERVER= branch, main.cpp lines 308-327. -/
def cipserver_branch (st : St) (args : List Nat) : St × List Ev :=
  let r := scan_dd args
  if 0 < r.1 ∧ r.2.1 = 0 then
    let s := server_stop st
    (s.1, s.2 ++ [Ev.ok])
  else if r.1 = 2 ∧ r.2.1 = 1 ∧ 0 < r.2.2 ∧ r.2.2 < 65536 ∧ r.2.2 ≠ 8080 ∧
          st.server = false then
    ({ st with server := true, server_port := r.2.2 }, [Ev.rtcSet r.2.2, Ev.ok])
  else (st, [Ev.err])

/-- AT+CIPCLOSE= branch, main.cpp lines 330-351. -/
def cipclose_branch (st : St) (args : List Nat) : St × List Ev :=
  match scan_d args with
  | none => (st, [Ev.err])
  | some n =>
    if n < 0 ∨ 16 ≤ n then (st, [Ev.err])
    else if st.client n.toNat = false then (st, [Ev.linkIsNot, Ev.err])
    else
      ({ st with client := Function.update st.client n.toNat false,
                 connected := st.connected - 1 },
       [Ev.sockStop n.toNat, Ev.closed n.toNat, Ev.ok])

/-- AT+CIPSEND validation and arming after the sscanf, main.cpp lines
360-377: slot range check, slot allocated and connected check, then the
capacity test comparing the command line's length `cmdLen` with
sizeof(send_buffer) = 2048, and finally the collector is armed for `l`
bytes and the prompt is printed. -/
def cipsend_checked (st : St) (cmdLen : Nat) (i l : Int) : St × List Ev :=
  if i < 0 ∨ 16 ≤ i then (st, [Ev.err])
  else if st.client i.toNat = false ∨ st.conn i.toNat = false then
    (st, [Ev.linkIsNot])
  else if 2048 < cmdLen then (st, [Ev.tooLong])
  else ({ st with send_to := i, send_buf := [], send_len := l }, [Ev.prompt])

/-- AT+CIPSEND= branch, main.cpp lines 354-378. -/
def cipsend_branch (st : St) (cmdLen : Nat) (args : List Nat) : St × List Ev :=
  let r := scan_dd args
  if r.1 ≠ 2 then (st, [Ev.err])
  else cipsend_checked st cmdLen r.2.1 r.2.2

/-- Command byte string AT. -/
def strAT : List Nat := [65, 84]

/-- Command byte string AT+RST. -/
def strATRST : List Nat := [65, 84, 43, 82, 83, 84]

/-- Command byte string AT+CWMODE=1. -/
def strCWMODE1 : List Nat := [65, 84, 43, 67, 87, 77, 79, 68, 69, 61, 49]

/-- Command byte string AT+CIPMUX=1. -/
def strCIPMUX1 : List Nat := [65, 84, 43, 67, 73, 80, 77, 85, 88, 61, 49]

/-- Command byte string AT+CWJAP? (question-mark query). -/
def strCWJAPq : List Nat := [65, 84, 43, 67, 87, 74, 65, 80, 63]

/-- Command byte prefix AT+CWJAP= (assignment). -/
def strCWJAPeq : List Nat := [65, 84, 43, 67, 87, 74, 65, 80, 61]

/-- Command byte prefix AT+CIPSTA=. -/
def strCIPSTA : List Nat := [65, 84, 43, 67, 73, 80, 83, 84, 65, 61]

/-- Command byte prefix AT+CIPSERVER=. -/
def strCIPSERVER : List Nat := [65, 84, 43, 67, 73, 80, 83, 69, 82, 86, 69, 82, 61]

/-- Command byte prefix AT+CIPCLOSE=. -/
def strCIPCLOSE : List Nat := [65, 84, 43, 67, 73, 80, 67, 76, 79, 83, 69, 61]

/-- Command byte prefix AT+CIPSEND=. -/
def strCIPSEND : List Nat := [65, 84, 43, 67, 73, 80, 83, 69, 78, 68, 61]

/-- process_command, main.cpp lines 170-385.  The command is dispatched in
source order; the third component of the result is the history entry
committed for this line (lines 175-183, truncated to the 128-byte entry,
and redacted inside the AT+CWJAP= branch), or none for an empty line. -/
def process_command (st : St) (env : Env) (cmd : List Nat) :
    St × List Ev × Option (List Nat) :=
  if cmd.length = 0 then (st, [], none)
  else
    let hist := cmd.take 127
    if cmd = strAT then (st, [Ev.ok], some hist)
    else if cmd = strATRST then
      let r := server_stop st
      (r.1, r.2 ++ [Ev.ready], some hist)
    else if cmd = strCWMODE1 then (st, [Ev.ok], some hist)
    else if cmd = strCIPMUX1 then (st, [Ev.ok], some hist)
    else if cmd = strCWJAPq then
      if env.isConnected then
        (st, [Ev.cwjapInfo (escape st.creds_ssid), Ev.ok], some hist)
      else (st, [Ev.noAp, Ev.err], some hist)
    else if 9 < cmd.length ∧ cmd.take 9 = strCWJAPeq then
      cwjap_branch st env cmd hist
    else if 10 < cmd.length ∧ cmd.take 10 = strCIPSTA then (st, [Ev.ok], some hist)
    else if 13 < cmd.length ∧ cmd.take 13 = strCIPSERVER then
      let r := cipserver_branch st (cmd.drop 13)
      (r.1, r.2, some hist)
    else if 12 < cmd.length ∧ cmd.take 12 = strCIPCLOSE then
      let r := cipclose_branch st (cmd.drop 12)
      (r.1, r.2, some hist)
    else if 11 < cmd.length ∧ cmd.take 11 = strCIPSEND then
      let r := cipsend_branch st cmd.length (cmd.drop 11)
      (r.1, r.2, some hist)
    else (st, [Ev.err], some hist)

/-- Command-line accumulation iteration of loop, main.cpp lines 491-522:
up to the free capacity of the 2048-byte input buffer is read and echoed;
if the buffer then ends with a newline the line (without the newline and an
optional carriage return) is processed and the buffer is reset; a full
buffer without newline is silently discarded.  Returns the state, the
events, the committed history entry and the bytes left in the serial
FIFO. -/
def command_step (st : St) (env : Env) (avail : List Nat) :
    St × List Ev × Option (List Nat) × List Nat :=
  let cap := 2048 - st.input_buf.length
  let taken := avail.take cap
  let leftover := avail.drop cap
  let buf := st.input_buf ++ taken
  let ech := if taken = [] then [] else [Ev.echo taken]
  if buf.getLast? = some 10 then
    let l1 := buf.length - 1
    let l2 := if 0 < l1 ∧ buf.getD (l1 - 1) 0 = 13 then l1 - 1 else l1
    let r := process_command st env (buf.take l2)
    ({ r.1 with input_buf := [] }, ech ++ r.2.1, r.2.2, leftover)
  else if buf.length = 2048 then
    ({ st with input_buf := [] }, ech, none, leftover)
  else
    ({ st with input_buf := buf }, ech, none, leftover)

/-- Send-collector iteration of loop, main.cpp lines 470-489: at most
`send_len` of the available bytes are consumed and appended to the payload
buffer; when the requested length is complete the buffer is written to the
target slot's socket in one call, SEND OK is printed and the collector
returns to idle.  Returns the state, the events and the bytes left in the
serial FIFO. -/
def collect_step (st : St) (avail : List Nat) : St × List Ev × List Nat :=
  let l := if st.send_len < (avail.length : Int) then st.send_len.toNat
           else avail.length
  let taken := avail.take l
  let st1 := { st with send_buf := st.send_buf ++ taken,
                       send_len := st.send_len - (taken.length : Int) }
  if st1.send_len = 0 then
    ({ st1 with send_buf := [], send_to := -1 },
     [Ev.sockWrite st1.send_to.toNat st1.send_buf, Ev.sendOk],
     avail.drop l)
  else (st1, [], avail.drop l)

/-- Serial input routing: the dispatch at main.cpp line 469 sends serial
bytes to the send collector iff send_len is positive, and to the command
parser otherwise. -/
inductive SerialRoute
  | collector
  | commandLine
  deriving DecidableEq

/-- Route chosen by the dispatch at main.cpp line 469. -/
def serial_route (st : St) : SerialRoute :=
  if 0 < st.send_len then SerialRoute.collector else SerialRoute.commandLine

/-- One serial-servicing pass of loop, main.cpp lines 464-524: nothing
happens without available bytes, otherwise the bytes go to the collector or
to the command accumulator according to `serial_route`.  Returns the state,
the events and the unconsumed bytes. -/
def serial_step (st : St) (env : Env) (avail : List Nat) :
    St × List Ev × List Nat :=
  if avail = [] then (st, [], [])
  else if 0 < st.send_len then collect_step st avail
  else
    let r := command_step st env avail
    (r.1, r.2.1, r.2.2.2)

/-- Feed successive serial chunks through loop iterations; bytes not
consumed by an iteration stay in the FIFO and precede the next chunk
(bytes left over after the last modelled iteration are not observed). -/
def run_serial (env : Env) : St → List (List Nat) → St × List Ev
  | st, [] => (st, [])
  | st, [c] =>
    let r := serial_step st env c
    (r.1, r.2.1)
  | st, c :: d :: ds =>
    let r := serial_step st env c
    let r2 := run_serial env r.1 ((r.2.2 ++ d) :: ds)
    (r2.1, r.2.1 ++ r2.2)
termination_by _ l => l.length

/-- First free slot search, main.cpp line 537: lowest index whose client
pointer is null. -/
def lowest_free (f : Nat → Bool) : Option Nat :=
  (List.range 16).find? (fun i => !(f i))

/-- New-connection acceptance, main.cpp lines 530-548: when the server
exists and a peer is pending it is placed in the lowest free slot (fresh
and connected) and announced, or stopped immediately when the table is
full. -/
def accept_step (st : St) (pending : Bool) : St × List Ev :=
  if st.server = true ∧ pending = true then
    match lowest_free st.client with
    | some i =>
      ({ st with client := Function.update st.client i true,
                 conn := Function.update st.conn i true,
                 connected := st.connected + 1 },
       [Ev.connectN i])
    | none => (st, [Ev.newClientStop])
  else (st, [])

/-- Peer-disconnect handling in the drain loop, main.cpp lines 560-571:
the slot's socket is stopped and freed, the CLOSED notification is framed,
an in-flight send targeting this slot is aborted and the connected count is
decremented.  Only called when the slot is allocated and its peer has
disconnected. -/
def drain_release (st : St) (i : Nat) : St × List Ev :=
  let st1 := { st with client := Function.update st.client i false,
                       connected := st.connected - 1 }
  if 0 < st.send_len ∧ st.send_to = (i : Int) then
    ({ st1 with send_buf := [], send_len := 0, send_to := -1 },
     [Ev.sockStop i, Ev.closed i])
  else (st1, [Ev.sockStop i, Ev.closed i])

/-- Number of slots whose client pointer is non-null. -/
def occ (f : Nat → Bool) : Int :=
  ∑ i ∈ Finset.range 16, (if f i then (1 : Int) else 0)

/-- The implicit invariant of the slot table: the connected counter equals
the number of allocated slots. -/
def slots_inv (st : St) : Prop :=
  st.connected = occ st.client

/-- States reachable from boot by the operations that touch the slot table
or enable it: the AT+CIPSERVER= branch (whose start path is the only setter
of the server flag that acceptance requires, main.cpp lines 308-327),
acceptance into the lowest free slot, AT+CIPCLOSE, the peer-disconnect
release of the drain loop (which the loop only runs for an allocated slot,
main.cpp line 556) and server_stop. -/
inductive Reach : St → Prop
  | init : Reach st_init
  | server (st : St) (args : List Nat) : Reach st → Reach (cipserver_branch st args).1
  | accept (st : St) (pending : Bool) : Reach st → Reach (accept_step st pending).1
  | close (st : St) (args : List Nat) : Reach st → Reach (cipclose_branch st args).1
  | drain (st : St) (i : Nat) (hi : i < 16) (hc : st.client i = true) :
      Reach st → Reach (drain_release st i).1
  | stop (st : St) : Reach st → Reach (server_stop st).1

/-- A well-formed join command line for the given ssid and password, in the
escaped wire form produced by the AT+CWJAP? output (main.cpp lines
215-222). -/
def join_cmd (ssid pass : List Nat) : List Nat :=
  strCWJAPeq ++ 34 :: (escape ssid ++ 34 :: 44 :: 34 :: (escape pass ++ [34]))

/-- A demonstration state with slot 0 allocated and connected. -/
def demo_st : St :=
  { st_init with client := Function.update st_init.client 0 true,
                 conn := Function.update st_init.conn 0 true,
                 connected := 1 }

/-- A demonstration credentials record whose byte arrays are all zero; its
valid checksum is plain CREDS_MAGIC. -/
def creds0 : Creds :=
  { crc := 14337, pass := fun _ => 0, ssid := fun _ => 0 }

/-- C5: encoding the volatile-port record with a 32-bit value and then
decoding it returns exactly that value; decoding any record whose magic is
not R, U, M or whose stored checksum differs from the 8-bit sum of its four
value bytes fails. -/
theorem rtc_roundtrip_validation :
    (∀ v : Nat, v < 2 ^ 32 → rtc_usermem_get (rtc_usermem_set v) = some v)
    ∧ (∀ d : RtcStorage, (d.magic0 ≠ 82 ∨ d.magic1 ≠ 85 ∨ d.magic2 ≠ 77) →
        rtc_usermem_get d = none)
    ∧ (∀ d : RtcStorage, rtc_checksum d.data ≠ d.checksum →
        rtc_usermem_get d = none) := by
  refine ⟨?_, ?_, ?_⟩
  · intro v _
    simp [rtc_usermem_get, rtc_usermem_set]
  · intro d h
    unfold rtc_usermem_get
    rw [if_pos h]
  · intro d h
    unfold rtc_usermem_get
    by_cases hm : d.magic0 ≠ 82 ∨ d.magic1 ≠ 85 ∨ d.magic2 ≠ 77
    · rw [if_pos hm]
    · rw [if_neg hm, if_pos h]

/-- Witness for rtc_roundtrip_validation at the concrete value 123456. -/
theorem rtc_roundtrip_validation_witness :
    rtc_usermem_get (rtc_usermem_set 123456) = some 123456 :=
  rtc_roundtrip_validation.1 123456 (by norm_num)

/-- C4: a Credentials record is accepted iff its stored checksum equals the
mod-2^16 sum of all 33 ssid bytes and all 64 password bytes plus 14337; for
an accepted record any single-byte change of either field, and any change
of the stored checksum, yields a rejected record; a rejected record's
fields are treated as empty strings by setup. -/
theorem creds_checksum_validation (c : Creds)
    (hs : ∀ i, c.ssid i < 256) (hp : ∀ i, c.pass i < 256) :
    (creds_accept c ↔
      c.crc = ((∑ i, c.ssid i) + (∑ i, c.pass i) + 14337) % 65536)
    ∧ (creds_accept c →
        (∀ j v, v < 256 → v ≠ c.ssid j →
          ¬ creds_accept { c with ssid := Function.update c.ssid j v })
        ∧ (∀ j v, v < 256 → v ≠ c.pass j →
          ¬ creds_accept { c with pass := Function.update c.pass j v })
        ∧ (∀ w, w ≠ c.crc → ¬ creds_accept { c with crc := w }))
    ∧ (¬ creds_accept c →
        cstr (setup_creds c).ssid = [] ∧ cstr (setup_creds c).pass = []) := by
  refine ⟨Iff.rfl, ?_, ?_⟩
  · intro hacc
    refine ⟨?_, ?_, ?_⟩
    · intro j v hv hne hacc'
      have hmem : j ∈ (Finset.univ : Finset (Fin 33)) := Finset.mem_univ j
      have h1 : (∑ i, Function.update c.ssid j v i)
          = v + ∑ i ∈ Finset.univ.erase j, c.ssid i := by
        rw [Finset.sum_update_of_mem hmem, Finset.sdiff_singleton_eq_erase]
      have h2 : (∑ i, c.ssid i)
          = c.ssid j + ∑ i ∈ Finset.univ.erase j, c.ssid i :=
        (Finset.add_sum_erase _ _ hmem).symm
      unfold creds_accept creds_crc CREDS_MAGIC at hacc hacc'
      dsimp only at hacc'
      rw [h1] at hacc'
      rw [h2] at hacc
      have hb := hs j
      omega
    · intro j v hv hne hacc'
      have hmem : j ∈ (Finset.univ : Finset (Fin 64)) := Finset.mem_univ j
      have h1 : (∑ i, Function.update c.pass j v i)
          = v + ∑ i ∈ Finset.univ.erase j, c.pass i := by
        rw [Finset.sum_update_of_mem hmem, Finset.sdiff_singleton_eq_erase]
      have h2 : (∑ i, c.pass i)
          = c.pass j + ∑ i ∈ Finset.univ.erase j, c.pass i :=
        (Finset.add_sum_erase _ _ hmem).symm
      unfold creds_accept creds_crc CREDS_MAGIC at hacc hacc'
      dsimp only at hacc'
      rw [h1] at hacc'
      rw [h2] at hacc
      have hb := hp j
      omega
    · intro w hne hacc'
      have h3 : creds_crc { c with crc := w } = creds_crc c := rfl
      have h4 : ({ c with crc := w } : Creds).crc = w := rfl
      unfold creds_accept at hacc hacc'
      rw [h3, h4] at hacc'
      exact hne (hacc'.trans hacc.symm)
  · intro hrej
    unfold creds_accept at hrej
    unfold setup_creds
    rw [if_neg hrej]
    constructor <;>
      simp [cstr, List.ofFn_succ, List.takeWhile_cons, Function.update_same]

/-- Witness for creds_checksum_validation: the all-zero record is accepted
and flipping one ssid byte to 5 is rejected. -/
theorem creds_checksum_validation_witness :
    creds_accept creds0
    ∧ ¬ creds_accept { creds0 with ssid := Function.update creds0.ssid 0 5 } := by
  have hacc : creds_accept creds0 := by
    unfold creds_accept creds_crc CREDS_MAGIC creds0
    simp
  refine ⟨hacc, ?_⟩
  exact (creds_checksum_validation creds0 (fun _ => by norm_num [creds0])
    (fun _ => by norm_num [creds0])).2.1 hacc |>.1 0 5 (by norm_num)
    (by norm_num [creds0])

/-- Key lemma for the escape and unescape roundtrip: the unescaping loop,
run on an escaped field followed by an unescaped quote, consumes exactly the
escaped field, reproduces the original bytes and stops at the quote,
provided the field fits the capacity bound and contains no NUL. -/
theorem parse_field_escape (bound : Nat) (s : List Nat) :
    ∀ (n : Nat) (acc rest : List Nat),
      s.length + n ≤ bound → (∀ c ∈ s, c ≠ 0) →
      parse_field bound n acc (escape s ++ 34 :: rest)
        = (acc.reverse ++ s, 34 :: rest) := by
  induction s with
  | nil =>
    intro n acc rest _ _
    rw [parse_field.eq_def]
    dsimp only [escape, List.map_nil, List.flatten_nil, List.nil_append]
    rw [if_pos (Or.inl rfl)]
    simp
  | cons c s ih =>
    intro n acc rest hlen hnz
    have hc0 : c ≠ 0 := hnz c (by simp)
    have hlen1 : s.length + 1 + n ≤ bound := by simpa using hlen
    have hn : n < bound := by omega
    have hs0 : ∀ x ∈ s, x ≠ 0 := fun x hx => hnz x (by simp [hx])
    have hlen2 : s.length + (n + 1) ≤ bound := by omega
    by_cases hsp : c = 34 ∨ c = 44 ∨ c = 92
    · have hesc : escape (c :: s) = 92 :: c :: escape s := by
        simp [escape, escape_byte, hsp]
      rw [hesc]
      have h92 : ¬((92 : Nat) = 34 ∨ (92 : Nat) = 0 ∨ bound ≤ n) := by
        push_neg
        exact ⟨by norm_num, by norm_num, by omega⟩
      rw [List.cons_append, List.cons_append, parse_field.eq_def]
      dsimp only
      rw [if_neg h92, if_pos (rfl : (92 : Nat) = 92)]
      rw [ih (n + 1) (c :: acc) rest hlen2 hs0]
      simp
    · have hesc : escape (c :: s) = c :: escape s := by
        simp [escape, escape_byte, hsp]
      rw [hesc]
      have hcond : ¬(c = 34 ∨ c = 0 ∨ bound ≤ n) := by
        push_neg
        refine ⟨fun h => hsp (Or.inl h), hc0, by omega⟩
      have hc92 : ¬ c = 92 := fun h => hsp (Or.inr (Or.inr h))
      rw [List.cons_append, parse_field.eq_def]
      dsimp only
      rw [if_neg hcond, if_neg hc92]
      rw [ih (n + 1) (c :: acc) rest hlen2 hs0]
      simp

/-- C6: for every ssid of at most 32 non-NUL bytes and password of at most
63 non-NUL bytes, escaping each field as the AT+CWJAP? output does and
parsing the resulting quoted argument with the join command's unescaping
parser recovers exactly the original pair. -/
theorem cwjap_escape_unescape_roundtrip (s p : List Nat)
    (h1 : s.length ≤ 32) (h2 : p.length ≤ 63)
    (h3 : ∀ c ∈ s, c ≠ 0) (h4 : ∀ c ∈ p, c ≠ 0) :
    parse_cwjap (34 :: (escape s ++ 34 :: 44 :: 34 :: (escape p ++ [34])))
      = some (s, p) := by
  unfold parse_cwjap
  dsimp only
  rw [if_pos (rfl : (34 : Nat) = 34)]
  rw [parse_field_escape 32 s 0 [] (44 :: 34 :: (escape p ++ [34]))
      (by omega) h3]
  dsimp only
  rw [if_pos ⟨rfl, rfl, rfl⟩]
  rw [parse_field_escape 63 p 0 [] [] (by omega) h4]
  dsimp only
  rw [if_pos (rfl : (34 : Nat) = 34)]
  simp

/-- Witness for cwjap_escape_unescape_roundtrip on a ssid containing a
quote and a password containing a backslash and a comma. -/
theorem cwjap_escape_unescape_roundtrip_witness :
    parse_cwjap (34 :: (escape [104, 34, 105]
        ++ 34 :: 44 :: 34 :: (escape [92, 44] ++ [34])))
      = some ([104, 34, 105], [92, 44]) :=
  cwjap_escape_unescape_roundtrip [104, 34, 105] [92, 44]
    (by norm_num) (by norm_num) (by norm_num) (by norm_num)

/-- C8: the join tail always performs the bounded wait for the connection
result, even when the supplied pair equals the stored credentials; when it
differs, the new credentials are persisted before the wait; on a join
timeout the CWJAP:1 FAIL text is answered and the new credentials remain
stored. -/
theorem cwjap_join_always_waits (st : St) (env : Env) (s p : List Nat) :
    (Ev.wifiWait ∈ (cwjap_join st env s p).2)
    ∧ ((s ≠ st.creds_ssid ∨ p ≠ st.creds_pass) →
        (cwjap_join st env s p).2 =
          [Ev.eepromPut s p, Ev.wifiDisconnect, Ev.wifiBegin s p, Ev.wifiWait]
            ++ (if env.joinOk then [Ev.ok] else [Ev.cwjapFail])
        ∧ (cwjap_join st env s p).1.creds_ssid = s
        ∧ (cwjap_join st env s p).1.creds_pass = p)
    ∧ (env.joinOk = false → Ev.cwjapFail ∈ (cwjap_join st env s p).2) := by
  unfold cwjap_join
  by_cases hch : s ≠ st.creds_ssid ∨ p ≠ st.creds_pass
  · rw [if_pos hch]
    cases hj : env.joinOk <;> simp
  · rw [if_neg hch]
    refine ⟨?_, fun hcontra => absurd hcontra hch, ?_⟩
    · cases hj : env.joinOk <;> simp
    · intro hj
      rw [hj]
      simp

/-- Witness for cwjap_join_always_waits: fresh credentials on a failing
join leave the pair stored and answer FAIL after the wait. -/
theorem cwjap_join_always_waits_witness :
    (cwjap_join st_init { isConnected := false, joinOk := false } [7] [8]).2 =
      [Ev.eepromPut [7] [8], Ev.wifiDisconnect, Ev.wifiBegin [7] [8],
       Ev.wifiWait, Ev.cwjapFail]
    ∧ (cwjap_join st_init { isConnected := false, joinOk := false } [7] [8]).1.creds_ssid
        = [7] := by
  have h := (cwjap_join_always_waits st_init
      { isConnected := false, joinOk := false } [7] [8]).2.1
    (Or.inl (by simp [st_init]))
  exact ⟨h.1, h.2.1⟩

/-- C1: for a validated slot, acceptance of AT+CIPSEND is decided by
comparing the command line's length with the 2048-byte payload buffer, not
the requested payload length, and an accepted command arms the collector
for exactly the requested length, including lengths above 2048. -/
theorem cipsend_capacity_check (st : St) (cmdLen : Nat) (i l : Int)
    (h0 : 0 ≤ i) (h16 : i < 16)
    (hc : st.client i.toNat = true) (hn : st.conn i.toNat = true) :
    ((cipsend_checked st cmdLen i l).2 = [Ev.prompt] ↔ cmdLen ≤ 2048)
    ∧ (cmdLen ≤ 2048 →
        cipsend_checked st cmdLen i l =
          ({ st with send_to := i, send_buf := [], send_len := l },
           [Ev.prompt])) := by
  have hr : ¬(i < 0 ∨ 16 ≤ i) := by omega
  have hcc : ¬(st.client i.toNat = false ∨ st.conn i.toNat = false) := by
    simp [hc, hn]
  constructor
  · by_cases hlen : 2048 < cmdLen
    · unfold cipsend_checked
      rw [if_neg hr, if_neg hcc, if_pos hlen]
      have hx : ¬ cmdLen ≤ 2048 := by omega
      simp [hx]
    · unfold cipsend_checked
      rw [if_neg hr, if_neg hcc, if_neg hlen]
      simp
      omega
  · intro hlen
    unfold cipsend_checked
    rw [if_neg hr, if_neg hcc, if_neg (by omega : ¬ 2048 < cmdLen)]

/-- Witness for cipsend_capacity_check: a 17-byte command line requesting
9999 payload bytes on a connected slot is accepted and arms the collector
for 9999 bytes. -/
theorem cipsend_capacity_check_witness :
    (cipsend_checked demo_st 17 0 9999).2 = [Ev.prompt]
    ∧ (cipsend_checked demo_st 17 0 9999).1.send_len = 9999 := by
  have h := cipsend_capacity_check demo_st 17 0 9999 (by norm_num) (by norm_num)
    (by rfl) (by rfl)
  rw [h.2 (by norm_num)]
  exact ⟨rfl, rfl⟩

/-- C3: a peer disconnect detected while a send targeting that slot is in
flight aborts the transfer: the only events are the socket stop and the
CLOSED notification (no socket write, no SEND OK), the slot is freed and
the collector is reset to idle. -/
theorem midsend_disconnect_abort (st : St) (i : Nat)
    (_hc : st.client i = true) (hlen : 0 < st.send_len)
    (hto : st.send_to = (i : Int)) :
    drain_release st i =
      ({ st with client := Function.update st.client i false,
                 connected := st.connected - 1,
                 send_buf := [], send_len := 0, send_to := -1 },
       [Ev.sockStop i, Ev.closed i])
    ∧ ∀ e ∈ (drain_release st i).2, sendish e = false := by
  constructor
  · unfold drain_release
    rw [if_pos ⟨hlen, hto⟩]
  · intro e he
    unfold drain_release at he
    rw [if_pos ⟨hlen, hto⟩] at he
    simp at he
    rcases he with rfl | rfl <;> rfl

/-- Witness for midsend_disconnect_abort: slot 0 disconnecting mid-send in
the demonstration state emits only the stop and CLOSED events and resets
the collector. -/
theorem midsend_disconnect_abort_witness :
    (drain_release { demo_st with send_buf := [1, 2], send_len := 3,
                                  send_to := 0 } 0).2
      = [Ev.sockStop 0, Ev.closed 0]
    ∧ (drain_release { demo_st with send_buf := [1, 2], send_len := 3,
                                    send_to := 0 } 0).1.send_len = 0 := by
  have h := midsend_disconnect_abort
    { demo_st with send_buf := [1, 2], send_len := 3, send_to := 0 } 0
    (by rfl) (by norm_num) (by rfl)
  rw [h.1]
  exact ⟨rfl, rfl⟩

/-- Updating one of the sixteen slot flags changes the occupancy count by
the difference of the old and new flag values. -/
theorem occ_update (f : Nat → Bool) (i : Nat) (hi : i < 16) (b : Bool) :
    occ (Function.update f i b) =
      occ f - (if f i then (1 : Int) else 0) + (if b then (1 : Int) else 0) := by
  unfold occ
  have hmem : i ∈ Finset.range 16 := Finset.mem_range.mpr hi
  have h1 : (∑ x ∈ Finset.range 16,
        (if Function.update f i b x then (1 : Int) else 0))
      = (if b then (1 : Int) else 0)
        + ∑ x ∈ (Finset.range 16).erase i, (if f x then (1 : Int) else 0) := by
    rw [← Finset.add_sum_erase _ _ hmem]
    congr 1
    · rw [Function.update_same]
    · apply Finset.sum_congr rfl
      intro x hx
      rw [Function.update_noteq (Finset.ne_of_mem_erase hx)]
  have h2 : (∑ x ∈ Finset.range 16, (if f x then (1 : Int) else 0))
      = (if f i then (1 : Int) else 0)
        + ∑ x ∈ (Finset.range 16).erase i, (if f x then (1 : Int) else 0) :=
    (Finset.add_sum_erase _ _ hmem).symm
  rw [h1, h2]
  ring

/-- C9: in every reachable state the connected counter equals the number
of slots whose client pointer is non-null; each slot operation preserves
the equality. -/
theorem connected_counts_slots (st : St) (h : Reach st) : slots_inv st := by
  induction h with
  | init =>
    unfold slots_inv st_init occ
    simp
  | server st args _ ih =>
    unfold cipserver_branch
    dsimp only
    by_cases h1 : 0 < (scan_dd args).1 ∧ (scan_dd args).2.1 = 0
    · rw [if_pos h1]
      unfold slots_inv server_stop occ
      simp
    · rw [if_neg h1]
      by_cases h2 : (scan_dd args).1 = 2 ∧ (scan_dd args).2.1 = 1
          ∧ 0 < (scan_dd args).2.2 ∧ (scan_dd args).2.2 < 65536
          ∧ (scan_dd args).2.2 ≠ 8080 ∧ st.server = false
      · rw [if_pos h2]
        exact ih
      · rw [if_neg h2]
        exact ih
  | accept st pending _ ih =>
    unfold accept_step
    by_cases hcond : st.server = true ∧ pending = true
    · rw [if_pos hcond]
      cases hfind : lowest_free st.client with
      | none => exact ih
      | some i =>
        have hi : i < 16 :=
          List.mem_range.mp (List.mem_of_find?_eq_some hfind)
        have hfree : st.client i = false := by
          have h5 := List.find?_some hfind
          simpa using h5
        unfold slots_inv at ih ⊢
        dsimp only
        rw [occ_update st.client i hi true, hfree]
        simp
        omega
    · rw [if_neg hcond]
      exact ih
  | close st args _ ih =>
    unfold cipclose_branch
    cases hscan : scan_d args with
    | none => exact ih
    | some n =>
      dsimp only
      by_cases h1 : n < 0 ∨ 16 ≤ n
      · rw [if_pos h1]
        exact ih
      · rw [if_neg h1]
        by_cases h2 : st.client n.toNat = false
        · rw [if_pos h2]
          exact ih
        · rw [if_neg h2]
          have hn : n.toNat < 16 := by omega
          have hcl : st.client n.toNat = true := by
            cases hcl2 : st.client n.toNat
            · exact absurd hcl2 h2
            · rfl
          unfold slots_inv at ih ⊢
          dsimp only
          rw [occ_update st.client n.toNat hn false, hcl]
          simp
          omega
  | drain st i hi hc _ ih =>
    have key : slots_inv
        ({ st with client := Function.update st.client i false,
                   connected := st.connected - 1 }) := by
      unfold slots_inv at ih ⊢
      dsimp only
      rw [occ_update st.client i hi false, hc]
      simp
      omega
    unfold drain_release
    by_cases hs : 0 < st.send_len ∧ st.send_to = (i : Int)
    · rw [if_pos hs]
      exact key
    · rw [if_neg hs]
      exact key
  | stop st _ ih =>
    unfold slots_inv server_stop occ
    simp

/-- Witness for connected_counts_slots: starting a server on port 8081
with AT+CIPSERVER=1,8081 and then accepting a pending peer reaches a state
with slot 0 allocated and the counter at one, satisfying the invariant. -/
theorem connected_counts_slots_witness :
    slots_inv
      (accept_step (cipserver_branch st_init [49, 44, 56, 48, 56, 49]).1 true).1
    ∧ (accept_step (cipserver_branch st_init [49, 44, 56, 48, 56, 49]).1 true).1.connected
        = 1
    ∧ (accept_step (cipserver_branch st_init [49, 44, 56, 48, 56, 49]).1 true).1.client 0
        = true :=
  ⟨connected_counts_slots _
      (Reach.accept _ true (Reach.server st_init _ Reach.init)),
   by decide, by decide⟩

/-- server_stop emits only socket stops and the rtc clear. -/
theorem server_stop_no_send (st : St) :
    ∀ e ∈ (server_stop st).2, sendish e = false := by
  intro e he
  unfold server_stop at he
  simp at he
  rcases he with ⟨i, -, rfl⟩ | rfl <;> rfl

/-- The join tail emits no socket write and no SEND OK. -/
theorem cwjap_join_no_send (st : St) (env : Env) (s p : List Nat) :
    ∀ e ∈ (cwjap_join st env s p).2, sendish e = false := by
  intro e he
  unfold cwjap_join at he
  split at he
  · split at he <;> (simp at he; rcases he with rfl | rfl | rfl | rfl | rfl <;> rfl)
  · split at he <;> (simp at he; rcases he with rfl | rfl <;> rfl)

/-- The AT+CWJAP= branch emits no socket write and no SEND OK. -/
theorem cwjap_branch_no_send (st : St) (env : Env) (cmd hist : List Nat) :
    ∀ e ∈ (cwjap_branch st env cmd hist).2.1, sendish e = false := by
  intro e he
  unfold cwjap_branch at he
  cases hdrop : cmd.drop 9 with
  | nil =>
    rw [hdrop] at he
    simp at he
    subst he; rfl
  | cons c0 rest =>
    rw [hdrop] at he
    dsimp only at he
    by_cases h0 : c0 = 34
    case neg =>
      rw [if_neg h0] at he
      simp at he; subst he; rfl
    case pos =>
      rw [if_pos h0] at he
      cases hrem : (parse_field 32 0 [] rest).2 with
      | nil => rw [hrem] at he; simp at he; subst he; rfl
      | cons a rem1 =>
        cases rem1 with
        | nil => rw [hrem] at he; simp at he; subst he; rfl
        | cons b rem2 =>
          cases rem2 with
          | nil => rw [hrem] at he; simp at he; subst he; rfl
          | cons c rest2 =>
            rw [hrem] at he
            dsimp only at he
            by_cases habc : a = 34 ∧ b = 44 ∧ c = 34
            case neg => rw [if_neg habc] at he; simp at he; subst he; rfl
            case pos =>
              rw [if_pos habc] at he
              cases hrem2 : (parse_field 63 0 [] rest2).2 with
              | nil => rw [hrem2] at he; simp at he; subst he; rfl
              | cons d rem3 =>
                rw [hrem2] at he
                dsimp only at he
                by_cases hd : d = 34
                case neg => rw [if_neg hd] at he; simp at he; subst he; rfl
                case pos =>
                  rw [if_pos hd] at he
                  exact cwjap_join_no_send st env _ _ e (by simpa using he)

/-- The AT+CIPSERVER= branch emits no socket write and no SEND OK. -/
theorem cipserver_no_send (st : St) (args : List Nat) :
    ∀ e ∈ (cipserver_branch st args).2, sendish e = false := by
  intro e he
  unfold cipserver_branch at he
  dsimp only at he
  by_cases h1 : 0 < (scan_dd args).1 ∧ (scan_dd args).2.1 = 0
  · rw [if_pos h1] at he
    simp at he
    rcases he with he | rfl
    · exact server_stop_no_send st e he
    · rfl
  · rw [if_neg h1] at he
    by_cases h2 : (scan_dd args).1 = 2 ∧ (scan_dd args).2.1 = 1
        ∧ 0 < (scan_dd args).2.2 ∧ (scan_dd args).2.2 < 65536
        ∧ (scan_dd args).2.2 ≠ 8080 ∧ st.server = false
    · rw [if_pos h2] at he
      simp at he
      rcases he with rfl | rfl <;> rfl
    · rw [if_neg h2] at he
      simp at he; subst he; rfl

/-- The AT+CIPCLOSE= branch emits no socket write and no SEND OK. -/
theorem cipclose_no_send (st : St) (args : List Nat) :
    ∀ e ∈ (cipclose_branch st args).2, sendish e = false := by
  intro e he
  unfold cipclose_branch at he
  cases hscan : scan_d args with
  | none => rw [hscan] at he; simp at he; subst he; rfl
  | some n =>
    rw [hscan] at he
    dsimp only at he
    by_cases h1 : n < 0 ∨ 16 ≤ n
    · rw [if_pos h1] at he; simp at he; subst he; rfl
    · rw [if_neg h1] at he
      by_cases h2 : st.client n.toNat = false
      · rw [if_pos h2] at he
        simp at he
        rcases he with rfl | rfl <;> rfl
      · rw [if_neg h2] at he
        simp at he
        rcases he with rfl | rfl | rfl <;> rfl

/-- The AT+CIPSEND validation and arming emits no socket write and no
SEND OK: it only prints a response or the prompt. -/
theorem cipsend_checked_no_send (st : St) (cmdLen : Nat) (i l : Int) :
    ∀ e ∈ (cipsend_checked st cmdLen i l).2, sendish e = false := by
  intro e he
  unfold cipsend_checked at he
  by_cases h1 : i < 0 ∨ 16 ≤ i
  · rw [if_pos h1] at he; simp at he; subst he; rfl
  · rw [if_neg h1] at he
    by_cases h2 : st.client i.toNat = false ∨ st.conn i.toNat = false
    · rw [if_pos h2] at he; simp at he; subst he; rfl
    · rw [if_neg h2] at he
      by_cases h3 : 2048 < cmdLen
      · rw [if_pos h3] at he; simp at he; subst he; rfl
      · rw [if_neg h3] at he; simp at he; subst he; rfl

/-- The AT+CIPSEND= branch emits no socket write and no SEND OK. -/
theorem cipsend_branch_no_send (st : St) (cmdLen : Nat) (args : List Nat) :
    ∀ e ∈ (cipsend_branch st cmdLen args).2, sendish e = false := by
  intro e he
  unfold cipsend_branch at he
  dsimp only at he
  by_cases h1 : (scan_dd args).1 ≠ 2
  · rw [if_pos h1] at he; simp at he; subst he; rfl
  · rw [if_neg h1] at he
    exact cipsend_checked_no_send st cmdLen _ _ e he

/-- process_command emits no socket write and no SEND OK: payload delivery
happens only in the send collector. -/
theorem process_command_no_send (st : St) (env : Env) (cmd : List Nat) :
    ∀ e ∈ (process_command st env cmd).2.1, sendish e = false := by
  intro e he
  unfold process_command at he
  by_cases h0 : cmd.length = 0
  · rw [if_pos h0] at he; simp at he
  · rw [if_neg h0] at he
    dsimp only at he
    by_cases h1 : cmd = strAT
    · rw [if_pos h1] at he; simp at he; subst he; rfl
    · rw [if_neg h1] at he
      by_cases h2 : cmd = strATRST
      · rw [if_pos h2] at he
        dsimp only at he
        simp at he
        rcases he with he | rfl
        · exact server_stop_no_send st e he
        · rfl
      · rw [if_neg h2] at he
        by_cases h3 : cmd = strCWMODE1
        · rw [if_pos h3] at he; simp at he; subst he; rfl
        · rw [if_neg h3] at he
          by_cases h4 : cmd = strCIPMUX1
          · rw [if_pos h4] at he; simp at he; subst he; rfl
          · rw [if_neg h4] at he
            by_cases h5 : cmd = strCWJAPq
            · rw [if_pos h5] at he
              by_cases h6 : env.isConnected = true
              · rw [if_pos h6] at he
                simp at he
                rcases he with rfl | rfl <;> rfl
              · rw [if_neg h6] at he
                simp at he
                rcases he with rfl | rfl <;> rfl
            · rw [if_neg h5] at he
              by_cases h7 : 9 < cmd.length ∧ cmd.take 9 = strCWJAPeq
              · rw [if_pos h7] at he
                exact cwjap_branch_no_send st env _ _ e he
              · rw [if_neg h7] at he
                by_cases h8 : 10 < cmd.length ∧ cmd.take 10 = strCIPSTA
                · rw [if_pos h8] at he; simp at he; subst he; rfl
                · rw [if_neg h8] at he
                  by_cases h9 : 13 < cmd.length ∧ cmd.take 13 = strCIPSERVER
                  · rw [if_pos h9] at he
                    dsimp only at he
                    exact cipserver_no_send st _ e he
                  · rw [if_neg h9] at he
                    by_cases h10 : 12 < cmd.length ∧ cmd.take 12 = strCIPCLOSE
                    · rw [if_pos h10] at he
                      dsimp only at he
                      exact cipclose_no_send st _ e he
                    · rw [if_neg h10] at he
                      by_cases h11 : 11 < cmd.length ∧ cmd.take 11 = strCIPSEND
                      · rw [if_pos h11] at he
                        dsimp only at he
                        exact cipsend_branch_no_send st _ _ e he
                      · rw [if_neg h11] at he
                        simp at he; subst he; rfl

/-- The echo of freshly read command bytes is never a write or SEND OK. -/
theorem echo_no_send (t : List Nat) :
    ∀ e ∈ (if t = [] then ([] : List Ev) else [Ev.echo t]), sendish e = false := by
  intro e he
  split at he <;> simp at he
  subst he
  rfl

/-- The command-line path of the serial service emits no socket write and
no SEND OK. -/
theorem command_step_no_send (st : St) (env : Env) (avail : List Nat) :
    ∀ e ∈ (command_step st env avail).2.1, sendish e = false := by
  intro e he
  unfold command_step at he
  dsimp only at he
  split at he
  · simp only [List.mem_append] at he
    rcases he with he | he
    · exact echo_no_send _ e he
    · exact process_command_no_send _ _ _ e he
  · split at he
    · exact echo_no_send _ e he
    · exact echo_no_send _ e he

/-- C10: an AT+CIPSEND with a validated slot and a non-positive requested
length prints the prompt and stores the length, but the collector is never
armed: with send_len at most zero the serial service always routes bytes to
the command-line parser and never produces a socket write or a SEND OK. -/
theorem cipsend_nonpositive_never_sends (st : St) (cmdLen : Nat) (i l : Int)
    (h0 : 0 ≤ i) (h16 : i < 16)
    (hc : st.client i.toNat = true) (hn : st.conn i.toNat = true)
    (hlen : cmdLen ≤ 2048) (hl : l ≤ 0) :
    cipsend_checked st cmdLen i l =
      ({ st with send_to := i, send_buf := [], send_len := l }, [Ev.prompt])
    ∧ serial_route { st with send_to := i, send_buf := [], send_len := l }
        = SerialRoute.commandLine
    ∧ (∀ st2 : St, st2.send_len ≤ 0 → ∀ (env : Env) (avail : List Nat),
        serial_route st2 = SerialRoute.commandLine
        ∧ ∀ e ∈ (serial_step st2 env avail).2.1, sendish e = false) := by
  refine ⟨?_, ?_, ?_⟩
  · unfold cipsend_checked
    rw [if_neg (by omega : ¬(i < 0 ∨ 16 ≤ i)), if_neg (by simp [hc, hn]),
        if_neg (by omega : ¬ 2048 < cmdLen)]
  · unfold serial_route
    dsimp only
    rw [if_neg (by omega : ¬ (0 : Int) < l)]
  · intro st2 hst2 env avail
    constructor
    · unfold serial_route
      rw [if_neg (by omega : ¬ (0 : Int) < st2.send_len)]
    · intro e he
      unfold serial_step at he
      split at he
      · simp at he
      · split at he
        case isTrue hgt => exact absurd hgt (by omega)
        case isFalse =>
          exact command_step_no_send st2 env avail e (by simpa using he)

/-- Witness for cipsend_nonpositive_never_sends: requesting zero bytes on a
connected slot prints the prompt and leaves the serial service in
command-line mode. -/
theorem cipsend_nonpositive_never_sends_witness :
    (cipsend_checked demo_st 16 0 0).2 = [Ev.prompt]
    ∧ serial_route (cipsend_checked demo_st 16 0 0).1
        = SerialRoute.commandLine := by
  have h := cipsend_nonpositive_never_sends demo_st 16 0 0 (by norm_num)
    (by norm_num) (by rfl) (by rfl) (by norm_num) (by norm_num)
  rw [h.1]
  exact ⟨rfl, h.2.1⟩

/-- Core collector run lemma: starting from an armed collector whose
remaining count equals the length of the data still to arrive, feeding that
data in any non-empty chunking yields exactly one socket write of the
complete payload to the target slot, one SEND OK, and the idle collector
state. -/
theorem run_serial_collect (env : Env) :
    ∀ (chunks : List (List Nat)) (st : St) (data got : List Nat),
      st.send_len = (data.length : Int) →
      0 < data.length →
      st.send_buf = got →
      chunks.flatten = data →
      (∀ c ∈ chunks, c ≠ []) →
      run_serial env st chunks =
        ({ st with send_buf := [], send_len := 0, send_to := -1 },
         [Ev.sockWrite st.send_to.toNat (got ++ data), Ev.sendOk]) := by
  intro chunks
  induction chunks with
  | nil =>
    intro st data got h1 h2 h3 h4 h5
    exfalso
    rw [← h4] at h2
    simp at h2
  | cons c cs ih =>
    intro st data got h1 h2 h3 h4 h5
    have hc : c ≠ [] := h5 c (by simp)
    have hdata : data = c ++ cs.flatten := by rw [← h4, List.flatten_cons]
    have hclen : c.length ≤ data.length := by rw [hdata]; simp
    have hlen2 : data.length = c.length + cs.flatten.length := by
      rw [hdata]; simp
    have hstep : serial_step st env c = collect_step st c := by
      unfold serial_step
      rw [if_neg hc, if_pos (by rw [h1]; exact_mod_cast h2)]
    have hl : ¬ st.send_len < (c.length : Int) := by rw [h1]; omega
    by_cases hfin : c.length = data.length
    · have hflat : cs.flatten = [] := by
        have hzl : cs.flatten.length = 0 := by omega
        exact List.length_eq_zero.mp hzl
      have hcs : cs = [] := by
        cases cs with
        | nil => rfl
        | cons d ds =>
          exfalso
          have hd : d ≠ [] := h5 d (by simp)
          rw [List.flatten_cons] at hflat
          exact hd (List.append_eq_nil.mp hflat).1
      subst hcs
      have hcd : c = data := by rw [hdata, hflat, List.append_nil]
      have hzero : st.send_len - (c.length : Int) = 0 := by rw [h1]; omega
      simp only [run_serial]
      rw [hstep]
      unfold collect_step
      rw [if_neg hl]
      dsimp only
      rw [List.take_length]
      rw [if_pos hzero]
      dsimp only
      rw [hzero, h3, hcd]
    · have hlt : c.length < data.length := Nat.lt_of_le_of_ne hclen hfin
      cases cs with
      | nil =>
        exfalso
        simp at hlen2
        omega
      | cons d ds =>
        have hd : d ≠ [] := h5 d (by simp)
        have hcollect : collect_step st c =
            ({ st with send_buf := got ++ c,
                       send_len := st.send_len - (c.length : Int) }, [], []) := by
          unfold collect_step
          rw [if_neg hl]
          dsimp only
          rw [List.take_length, List.drop_length, h3]
          rw [if_neg (by rw [h1]; omega : ¬ st.send_len - (c.length : Int) = 0)]
        simp only [run_serial]
        rw [hstep, hcollect]
        dsimp only
        simp only [List.nil_append]
        rw [ih { st with send_buf := got ++ c,
                         send_len := st.send_len - (c.length : Int) }
            (d :: ds).flatten (got ++ c)
            (by show st.send_len - (c.length : Int) = ((d :: ds).flatten.length : Int)
                rw [h1]; omega)
            (by rw [List.flatten_cons, List.length_append]
                have := List.length_pos.mpr hd
                omega)
            rfl rfl (fun x hx => h5 x (by simp [hx]))]
        rw [hdata]
        simp [List.append_assoc]

/-- C2: after an accepted AT+CIPSEND arming the collector for the length of
`data` on slot i, delivering exactly those bytes in arbitrarily many chunks
always produces the same outcome: one socket write of exactly those bytes
to slot i followed by one SEND OK, after which the collector is idle and
serial input is routed to the command-line parser again. -/
theorem cipsend_chunking_invariance (env : Env) (st : St) (i : Nat)
    (data : List Nat) (chunks : List (List Nat))
    (_hi : i < 16) (_hcl : st.client i = true) (_hconn : st.conn i = true)
    (harm1 : st.send_len = (data.length : Int))
    (harm2 : st.send_to = (i : Int)) (harm3 : st.send_buf = [])
    (hpos : 0 < data.length) (_hcap : data.length ≤ 2048)
    (hjoin : chunks.flatten = data) (hne : ∀ c ∈ chunks, c ≠ []) :
    run_serial env st chunks =
      ({ st with send_buf := [], send_len := 0, send_to := -1 },
       [Ev.sockWrite i data, Ev.sendOk])
    ∧ serial_route { st with send_buf := [], send_len := 0, send_to := -1 }
        = SerialRoute.commandLine := by
  constructor
  · rw [run_serial_collect env chunks st data [] harm1 hpos harm3 hjoin hne]
    rw [harm2]
    simp
  · unfold serial_route
    dsimp only
    rw [if_neg (by omega : ¬ (0 : Int) < 0)]

/-- Witness for cipsend_chunking_invariance: three payload bytes arriving
as one byte and then two bytes produce a single write and one SEND OK. -/
theorem cipsend_chunking_invariance_witness :
    run_serial { isConnected := true, joinOk := true }
      { demo_st with send_buf := [], send_len := 3, send_to := 0 }
      [[10], [11, 12]] =
      ({ demo_st with send_buf := [], send_len := 0, send_to := -1 },
       [Ev.sockWrite 0 [10, 11, 12], Ev.sendOk]) := by
  have h := cipsend_chunking_invariance { isConnected := true, joinOk := true }
    { demo_st with send_buf := [], send_len := 3, send_to := 0 } 0
    [10, 11, 12] [[10], [11, 12]] (by norm_num) (by rfl) (by rfl)
    (by norm_num) (by norm_num) (by rfl) (by norm_num) (by norm_num)
    (by rfl) (by decide)
  exact h.1

/-- The join tail always emits the bounded wait event. -/
theorem cwjap_join_wait (st : St) (env : Env) (s p : List Nat) :
    Ev.wifiWait ∈ (cwjap_join st env s p).2 := by
  unfold cwjap_join
  split <;> split <;> simp

/-- After the join tail the stored credentials equal the supplied pair:
either they were overwritten with it, or they already were that pair. -/
theorem cwjap_join_creds (st : St) (env : Env) (s p : List Nat) :
    (cwjap_join st env s p).1.creds_ssid = s
    ∧ (cwjap_join st env s p).1.creds_pass = p := by
  unfold cwjap_join
  by_cases hch : s ≠ st.creds_ssid ∨ p ≠ st.creds_pass
  · rw [if_pos hch]
    constructor <;> (split <;> rfl)
  · rw [if_neg hch]
    push_neg at hch
    constructor <;> (split <;> simp [hch.1, hch.2])

/-- C7: processing a well-formed join command line shorter than the
128-byte history entry commits a history text that keeps the command and
the ssid but replaces the password portion with the star redaction marker,
while the credentials actually taken for the join are the original
unredacted pair and the join wait is still performed. -/
theorem cwjap_history_redaction (st : St) (env : Env) (s p : List Nat)
    (h1 : s.length ≤ 32) (h2 : p.length ≤ 63)
    (h3 : ∀ c ∈ s, c ≠ 0) (h4 : ∀ c ∈ p, c ≠ 0)
    (hsmall : (join_cmd s p).length < 128) :
    (process_command st env (join_cmd s p)).2.2
      = some (strCWJAPeq ++ 34 :: (escape s ++ [34, 44, 34, 42, 34]))
    ∧ (process_command st env (join_cmd s p)).1.creds_ssid = s
    ∧ (process_command st env (join_cmd s p)).1.creds_pass = p
    ∧ Ev.wifiWait ∈ (process_command st env (join_cmd s p)).2.1 := by
  have hlen : (join_cmd s p).length
      = 14 + (escape s).length + (escape p).length := by
    unfold join_cmd strCWJAPeq
    simp
    omega
  have hlne : ∀ t : List Nat, t.length ≠ (join_cmd s p).length →
      join_cmd s p ≠ t := by
    intro t ht h
    exact ht (by rw [h])
  have hne0 : ¬ (join_cmd s p).length = 0 := by omega
  have hne1 : ¬ join_cmd s p = strAT :=
    hlne strAT (by rw [hlen]; simp [strAT]; omega)
  have hne2 : ¬ join_cmd s p = strATRST :=
    hlne strATRST (by rw [hlen]; simp [strATRST]; omega)
  have hne3 : ¬ join_cmd s p = strCWMODE1 :=
    hlne strCWMODE1 (by rw [hlen]; simp [strCWMODE1]; omega)
  have hne4 : ¬ join_cmd s p = strCIPMUX1 :=
    hlne strCIPMUX1 (by rw [hlen]; simp [strCIPMUX1]; omega)
  have hne5 : ¬ join_cmd s p = strCWJAPq :=
    hlne strCWJAPq (by rw [hlen]; simp [strCWJAPq]; omega)
  have htake9 : (join_cmd s p).take 9 = strCWJAPeq := by
    unfold join_cmd
    exact List.take_left' rfl
  have hguard : 9 < (join_cmd s p).length ∧ (join_cmd s p).take 9 = strCWJAPeq :=
    ⟨by omega, htake9⟩
  have htake127 : (join_cmd s p).take 127 = join_cmd s p :=
    List.take_of_length_le (by omega)
  have hdrop : (join_cmd s p).drop 9
      = 34 :: (escape s ++ 34 :: 44 :: 34 :: (escape p ++ [34])) := by
    unfold join_cmd
    exact List.drop_left' rfl
  have htake : (join_cmd s p).take (13 + (escape s).length)
      = strCWJAPeq ++ 34 :: (escape s ++ [34, 44, 34]) := by
    unfold join_cmd
    have e1 : 13 + (escape s).length
        = strCWJAPeq.length + (4 + (escape s).length) := by
      simp [strCWJAPeq]
      omega
    rw [e1, List.take_append]
    have e2 : 4 + (escape s).length = (3 + (escape s).length) + 1 := by omega
    rw [e2, List.take_succ_cons]
    have e3 : 3 + (escape s).length = (escape s).length + 3 := by omega
    rw [e3, List.take_append]
    simp
  have hbr : cwjap_branch st env (join_cmd s p) (join_cmd s p) =
      ((cwjap_join st env s p).1, (cwjap_join st env s p).2,
       some (strCWJAPeq ++ 34 :: (escape s ++ [34, 44, 34, 42, 34]))) := by
    unfold cwjap_branch
    rw [hdrop]
    dsimp only
    rw [if_pos (rfl : (34 : Nat) = 34)]
    rw [parse_field_escape 32 s 0 [] (44 :: 34 :: (escape p ++ [34]))
        (by omega) h3]
    dsimp only
    rw [if_pos ⟨rfl, rfl, rfl⟩]
    rw [parse_field_escape 63 p 0 [] [] (by omega) h4]
    dsimp only
    rw [if_pos (rfl : (34 : Nat) = 34)]
    simp only [List.reverse_nil, List.nil_append]
    have hoff : 9 + 1 + ((escape s ++ 34 :: 44 :: 34 :: (escape p ++ [34])).length
          - (34 :: 44 :: 34 :: (escape p ++ [34])).length) + 3
        = 13 + (escape s).length := by
      simp
      omega
    rw [hoff, htake]
    simp
  have hpc : process_command st env (join_cmd s p)
      = cwjap_branch st env (join_cmd s p) (join_cmd s p) := by
    unfold process_command
    rw [if_neg hne0]
    dsimp only
    rw [htake127, if_neg hne1, if_neg hne2, if_neg hne3, if_neg hne4,
        if_neg hne5, if_pos hguard]
  rw [hpc, hbr]
  exact ⟨rfl, (cwjap_join_creds st env s p).1, (cwjap_join_creds st env s p).2,
    cwjap_join_wait st env s p⟩

/-- Witness for cwjap_history_redaction on the ssid h and password sec. -/
theorem cwjap_history_redaction_witness :
    (process_command st_init { isConnected := false, joinOk := false }
        (join_cmd [104] [115, 101, 99])).2.2
      = some (strCWJAPeq ++ 34 :: (escape [104] ++ [34, 44, 34, 42, 34])) :=
  (cwjap_history_redaction st_init { isConnected := false, joinOk := false }
    [104] [115, 101, 99] (by norm_num) (by norm_num) (by decide) (by decide)
    (by decide)).1

end Msr23
